import Mathlib

/-!
Verification of the RPS-Minus-One solver (`rps_live_solver.py`).

The repository's original logic is pure: a `beats` relation on gesture
strings, a `remove_gesture` decision function over two two-gesture lists,
a hand classifier `_assign_hands_to_players`, and a `solve` resolver that
renders text messages.  We embed those functions shallowly:

* Python strings become `String`, Python lists become `List`.
* A Python `set` built from a list `l` is represented by `l.dedup`
  (a duplicate-free list holding exactly the set's elements).  The one
  place where the *iteration order* of a set is observable is
  `a, b = list(my_set)`; CPython's order there is hash-dependent, so the
  embedding takes an enumeration function `σ` as a parameter, and
  theorems assume only that `σ` returns some permutation of its input.
* `random.choice(seq)` is `seq[i]` for an RNG-chosen index `i`; the
  embedding takes the RNG draw `r : Nat` as a parameter and indexes with
  `r % seq.length`, raising (as `Except.error`) on an empty sequence
  exactly like `random.choice`.
* Python exceptions (`IndexError`, `ValueError`, `KeyError`) become
  `Except.error`; normal returns become `Except.ok`.
* The single `print` inside `remove_gesture` (a warning) is made explicit:
  the function returns the pair of its result and the list of printed
  warning lines.
* Normalized image coordinates become `ℚ`; the only operations the code
  performs on them are comparisons against `0.5` and sorting, which the
  rational numbers model faithfully.
-/

deriving instance DecidableEq for Except

/-- `GESTURES = ["rock", "paper", "scissors"]` from the configuration
section of `rps_live_solver.py`. -/
def GESTURES : List String := ["rock", "paper", "scissors"]

/-- `beats(a, b)` from `rps_live_solver.py`: standard RPS win logic. -/
def beats (a b : String) : Bool :=
  (a == "rock" && b == "scissors") ||
  (a == "scissors" && b == "paper") ||
  (a == "paper" && b == "rock")

/-- Model of Python's `random.choice(l)`: returns `l[i]` for an
RNG-chosen index `i` (here `r % l.length`), and raises `IndexError` on an
empty sequence. -/
def randChoice (r : Nat) (l : List String) : Except String String :=
  match l with
  | [] => Except.error "IndexError: Cannot choose from an empty sequence"
  | x :: xs =>
      Except.ok ((x :: xs).get ⟨r % (x :: xs).length, Nat.mod_lt r (Nat.succ_pos xs.length)⟩)

/-- The warning printed by the anomalous-input branch of `remove_gesture`. -/
def WARNING_MSG : String :=
  "WARNING: Player hand input violates game rules (not exactly 2 distinct gestures). Falling back to arbitrary choice."

/-- `remove_gesture(my_hand, opp_hand)` from `rps_live_solver.py`.

`σ` models the (hash-dependent) enumeration order of `list(my_set)` in the
`len(common) == 2` branch; `r` models the RNG draw behind `random.choice`.
The result is the returned value (or the raised exception) paired with the
list of printed warning lines. -/
def remove_gesture (σ : List String → List String) (r : Nat)
    (my_hand opp_hand : List String) : Except String String × List String :=
  let my_set := my_hand.dedup
  let opp_set := opp_hand.dedup
  let common := my_set.filter fun g => decide (g ∈ opp_set)
  let my_unique := my_set.filter fun g => !decide (g ∈ opp_set)
  let opp_unique := opp_set.filter fun g => !decide (g ∈ my_set)
  if common.length = 2 then
    match σ my_set with
    | [a, b] => (if beats a b then Except.ok b else Except.ok a, [])
    | _ => (Except.error "ValueError: unpacking list(my_set) into a, b", [])
  else if common.length = 1 then
    if my_unique.length ≠ 1 ∨ opp_unique.length ≠ 1 then
      (randChoice r my_hand, [WARNING_MSG])
    else
      match common.head?, my_unique.head?, opp_unique.head? with
      | some common_gesture, some my_nc, some opp_nc =>
          if beats my_nc opp_nc then (Except.ok my_nc, [])
          else if beats opp_nc my_nc then (Except.ok common_gesture, [])
          else (Except.ok "rock", [])
      | _, _, _ => (Except.error "IndexError: list index out of range", [])
  else if common.length = 0 then
    (randChoice r my_hand, [])
  else
    (Except.ok "rock", [])

/-- The `Hand` class of `rps_live_solver.py`: a detected gesture with its
normalized location; `player` and `side` start as `None` and are filled in
by the classifier. -/
structure Hand where
  gesture_id : Nat
  x_center : ℚ
  y_center : ℚ
  width : ℚ
  height : ℚ
  player : Option String := none
  side : Option String := none
deriving DecidableEq

/-- `GESTURE_ID_MAP` from `rps_live_solver.py`; a Python dict lookup on a
missing key raises `KeyError`, hence the `Option`. -/
def GESTURE_ID_MAP : Nat → Option String
  | 0 => some "rock"
  | 1 => some "paper"
  | 2 => some "scissors"
  | _ => none

/-- The sort key used by `_assign_hands_to_players`:
`key=lambda h: h.x_center`. -/
def xle (a b : Hand) : Prop := a.x_center ≤ b.x_center

instance : DecidableRel xle := fun a b => inferInstanceAs (Decidable (a.x_center ≤ b.x_center))

instance : IsTotal Hand xle := ⟨fun a b => le_total a.x_center b.x_center⟩

instance : IsTrans Hand xle := ⟨fun _ _ _ h1 h2 => le_trans h1 h2⟩

/-- The side-labelling step of `_assign_hands_to_players`: if at least two
hands are present (after sorting), the first gets `'LEFT'` and the second
`'RIGHT'`; otherwise nothing is assigned. -/
def setSides : List Hand → List Hand
  | a :: b :: rest => { a with side := some "LEFT" } :: { b with side := some "RIGHT" } :: rest
  | l => l

/-- `RPSCustomSolver._assign_hands_to_players` from `rps_live_solver.py`,
returning `(opponent_hands, my_hands)`.  Hands with `y_center < 0.5` get
player `'OPPONENT'`, the rest `'MINE'`; both groups are sorted by
`x_center` (Python `list.sort` is stable, as is `List.insertionSort`), and
the first two of the sorted `my_hands` get sides `LEFT`/`RIGHT`. -/
def assignHands (hands : List Hand) : List Hand × List Hand :=
  let opponent_hands := (hands.filter fun h => decide (h.y_center < mkRat 1 2)).map
      fun h => { h with player := some "OPPONENT" }
  let my_hands := (hands.filter fun h => !decide (h.y_center < mkRat 1 2)).map
      fun h => { h with player := some "MINE" }
  (List.insertionSort xle opponent_hands, setSides (List.insertionSort xle my_hands))

/-- The comprehension `[self.gesture_names[h.gesture_id] for h in hands]`
from `RPSCustomSolver.solve`; raises `KeyError` at the first unmapped id. -/
def lookupGestures : List Hand → Except String (List String)
  | [] => Except.ok []
  | h :: hs =>
      match GESTURE_ID_MAP h.gesture_id with
      | none => Except.error "KeyError: gesture_id not in GESTURE_ID_MAP"
      | some g =>
          match lookupGestures hs with
          | Except.error e => Except.error e
          | Except.ok gs => Except.ok (g :: gs)

/-- The count-mismatch message built by `RPSCustomSolver.solve` when fewer
than two hands were detected for either player. -/
def countMismatchMsg (o m : Nat) : String :=
  "⚠️ Error: Model detected " ++ (toString o ++ (" opponent hand(s) and " ++
    (toString m ++ " of your hand(s). Need two of each for the game.")))

/-- The logic-error message built by `RPSCustomSolver.solve` when the
removal gesture matches neither of the player's hands. -/
def logicErrorMsg (g : String) : String :=
  "⚠️ Logic Error: Could not find the physical hand matching the required removal gesture: **" ++
    (g ++ "**")

/-- The final instruction message built by `RPSCustomSolver.solve`. -/
def removalMsg (g0 g1 o0 o1 g side : String) : String :=
  "\n--- Game Analysis ---\nYour hands: **" ++ (g0.capitalize ++ ("** (Left), **" ++
    (g1.capitalize ++ ("** (Right)\nOpponent's hands: **" ++ (o0.capitalize ++ ("**, **" ++
      (o1.capitalize ++ ("**\nCustom Logic Determined Remove: **" ++ (g.capitalize ++
        ("**\n✅ **ACTION: REMOVE your " ++ (side ++ " hand.**")))))))))))

/-- `RPSCustomSolver.solve` from `rps_live_solver.py`.  `σ` and `r` are
threaded to `remove_gesture` (set-enumeration order and RNG draw); returned
strings become `Except.ok`, raised exceptions `Except.error`. -/
def solve (σ : List String → List String) (r : Nat) (hands : List Hand) :
    Except String String :=
  let assigned := assignHands hands
  let opponent_hands := assigned.1
  let my_hands := assigned.2
  if opponent_hands.length < 2 ∨ my_hands.length < 2 then
    Except.ok (countMismatchMsg opponent_hands.length my_hands.length)
  else
    match lookupGestures my_hands with
    | Except.error e => Except.error e
    | Except.ok my_gesture_names =>
        match lookupGestures opponent_hands with
        | Except.error e => Except.error e
        | Except.ok opp_gesture_names =>
            match (remove_gesture σ r my_gesture_names opp_gesture_names).1 with
            | Except.error e => Except.error e
            | Except.ok gesture_to_remove =>
                match my_gesture_names, opp_gesture_names with
                | g0 :: g1 :: _, o0 :: o1 :: _ =>
                    let side : Option String :=
                      if g0 = gesture_to_remove ∧ g1 = gesture_to_remove then some "LEFT"
                      else if g0 = gesture_to_remove then some "LEFT"
                      else if g1 = gesture_to_remove then some "RIGHT"
                      else none
                    match side with
                    | none => Except.ok (logicErrorMsg gesture_to_remove)
                    | some s => Except.ok (removalMsg g0 g1 o0 o1 gesture_to_remove s)
                | _, _ => Except.error "IndexError: list index out of range"

/-- Five detections, three in the upper half (opponent) and two in the
lower half: one more opponent hand than a valid game state allows. -/
def cexHands : List Hand :=
  [⟨0, mkRat 1 10, mkRat 2 10, mkRat 1 10, mkRat 1 10, none, none⟩,
   ⟨0, mkRat 2 10, mkRat 3 10, mkRat 1 10, mkRat 1 10, none, none⟩,
   ⟨0, mkRat 3 10, mkRat 4 10, mkRat 1 10, mkRat 1 10, none, none⟩,
   ⟨0, mkRat 1 10, mkRat 7 10, mkRat 1 10, mkRat 1 10, none, none⟩,
   ⟨0, mkRat 2 10, mkRat 8 10, mkRat 1 10, mkRat 1 10, none, none⟩]

/-- Two detections only: one opponent hand and one of mine. -/
def oneOneHands : List Hand :=
  [⟨0, mkRat 1 10, mkRat 2 10, mkRat 1 10, mkRat 1 10, none, none⟩,
   ⟨0, mkRat 2 10, mkRat 8 10, mkRat 1 10, mkRat 1 10, none, none⟩]

/-- Four detections with `y_center` values `[0.2, 0.3, 0.7, 0.8]`: the
classifier example from the specification. -/
def exHands8 : List Hand :=
  [⟨0, mkRat 3 10, mkRat 2 10, mkRat 1 10, mkRat 1 10, none, none⟩,
   ⟨1, mkRat 6 10, mkRat 3 10, mkRat 1 10, mkRat 1 10, none, none⟩,
   ⟨2, mkRat 7 10, mkRat 7 10, mkRat 1 10, mkRat 1 10, none, none⟩,
   ⟨0, mkRat 2 10, mkRat 8 10, mkRat 1 10, mkRat 1 10, none, none⟩]

/-- A permutation of a two-element list is that list or its swap. -/
theorem perm_pair {α : Type} {l : List α} {a b : α} (h : l.Perm [a, b]) :
    l = [a, b] ∨ l = [b, a] := by
  obtain ⟨x, y, rfl⟩ := List.length_eq_two.mp h.length_eq
  have hx : x ∈ [a, b] := h.mem_iff.mp (by simp)
  rcases (by simpa using hx : x = a ∨ x = b) with rfl | rfl
  · left
    have := h.cons_inv
    simp [List.perm_singleton] at this
    simp [this]
  · right
    have h2 : List.Perm [x, y] [x, a] := h.trans (List.Perm.swap x a [])
    have := h2.cons_inv
    simp [List.perm_singleton] at this
    simp [this]

/-- `beats` is asymmetric on every pair of strings. -/
theorem beats_asymm {a b : String} (h : beats a b = true) : beats b a = false := by
  simp only [beats, Bool.or_eq_true, Bool.and_eq_true, beq_iff_eq] at h
  rcases h with (⟨h1, h2⟩ | ⟨h1, h2⟩) | ⟨h1, h2⟩ <;> subst h1 <;> subst h2 <;> decide

/-- `beats` is total on distinct valid gestures. -/
theorem beats_total {a b : String} (ha : a ∈ GESTURES) (hb : b ∈ GESTURES)
    (hne : a ≠ b) : beats a b = true ∨ beats b a = true := by
  simp only [GESTURES, List.mem_cons, List.mem_singleton, List.not_mem_nil, or_false] at ha hb
  rcases ha with rfl | rfl | rfl <;> rcases hb with rfl | rfl | rfl <;>
    first
      | exact absurd rfl hne
      | exact Or.inl (by decide)
      | exact Or.inr (by decide)

/-- `random.choice` on a nonempty sequence yields one of its elements. -/
theorem randChoice_mem {r : Nat} {l : List String} (h : l ≠ []) :
    ∃ g, randChoice r l = Except.ok g ∧ g ∈ l := by
  match l with
  | [] => exact absurd rfl h
  | x :: xs =>
      exact ⟨_, rfl, List.get_mem _ _ _⟩

/-- `random.choice` on a nonempty sequence of equal elements yields that
element. -/
theorem randChoice_const {r : Nat} {l : List String} {g : String}
    (h1 : ∀ x ∈ l, x = g) (h2 : l ≠ []) : randChoice r l = Except.ok g := by
  match l with
  | [] => exact absurd rfl h2
  | x :: xs =>
      simp only [randChoice, Except.ok.injEq]
      exact h1 _ (List.get_mem _ _ _)

/-- Characterization of `remove_gesture` on the `len(common) == 1` branch
with well-formed unique sets: the outcome is forced by `beats` on the two
non-common gestures, independently of the set-enumeration order `σ` and
the RNG draw `r`. -/
theorem rg_common1 (σ : List String → List String) (r : Nat)
    (mine opp : List String) (cg mnc onc : String)
    (hc : mine.dedup.filter (fun g => decide (g ∈ opp.dedup)) = [cg])
    (hmu : mine.dedup.filter (fun g => !decide (g ∈ opp.dedup)) = [mnc])
    (hou : opp.dedup.filter (fun g => !decide (g ∈ mine.dedup)) = [onc]) :
    remove_gesture σ r mine opp =
      (if beats mnc onc then Except.ok mnc
       else if beats onc mnc then Except.ok cg
       else Except.ok "rock", []) := by
  simp only [remove_gesture, hc, hmu, hou]
  simp only [List.length_cons, List.length_nil, List.head?_cons]
  norm_num
  split_ifs <;> rfl

/-- Characterization of `remove_gesture` on the `len(common) == 2` branch
for two distinct valid gestures: whatever order `σ` enumerates the set in,
the result is the loser of the pair. -/
theorem rg_common2 (σ : List String → List String) (r : Nat)
    (mine opp : List String) (a b : String)
    (hσ : (σ mine.dedup).Perm mine.dedup)
    (hset : mine.dedup = [a, b])
    (hc2 : (mine.dedup.filter fun g => decide (g ∈ opp.dedup)).length = 2)
    (hab : a ≠ b) (ha : a ∈ GESTURES) (hb : b ∈ GESTURES) :
    remove_gesture σ r mine opp =
      (if beats a b then Except.ok b else Except.ok a, []) := by
  rw [hset] at hσ
  rcases perm_pair hσ with hp | hp
  · simp only [remove_gesture, hc2, if_true, reduceIte]
    rw [hset, hp]
  · simp only [remove_gesture, hc2, if_true, reduceIte]
    rw [hset, hp]
    by_cases hba : beats a b = true
    · simp [beats_asymm hba, hba]
    · rcases beats_total ha hb hab with h | h
      · exact absurd h hba
      · simp [h, hba]

/-- On any two-element (or shorter, nonempty) hand of valid gestures
against valid opponent gestures, `remove_gesture` raises no exception and
its result is drawn from `mine`, whichever branch (including the random
fallbacks) is taken. -/
theorem remove_gesture_mem (σ : List String → List String) (r : Nat)
    (mine opp : List String)
    (hσ : (σ mine.dedup).Perm mine.dedup)
    (hne : mine ≠ [])
    (hlen : mine.length ≤ 2)
    (hmv : ∀ x ∈ mine, x ∈ GESTURES)
    (hov : ∀ x ∈ opp, x ∈ GESTURES) :
    ∃ g, (remove_gesture σ r mine opp).1 = Except.ok g ∧ g ∈ mine := by
  have hdsub : mine.dedup ⊆ mine := List.dedup_subset mine
  have hdlen : mine.dedup.length ≤ mine.length := (List.dedup_sublist mine).length_le
  have hflen : (mine.dedup.filter fun g => decide (g ∈ opp.dedup)).length ≤ mine.dedup.length :=
    List.length_filter_le _ _
  by_cases hc2 : (mine.dedup.filter fun g => decide (g ∈ opp.dedup)).length = 2
  · have h2 : mine.dedup.length = 2 := le_antisymm (hdlen.trans hlen) (by omega)
    obtain ⟨a, b, hab⟩ := List.length_eq_two.mp h2
    have hnd : mine.dedup.Nodup := List.nodup_dedup mine
    have hane : a ≠ b := by
      rw [hab] at hnd
      exact (List.pairwise_cons.mp hnd).1 b (by simp)
    have ham : a ∈ mine := hdsub (by rw [hab]; simp)
    have hbm : b ∈ mine := hdsub (by rw [hab]; simp)
    rw [rg_common2 σ r mine opp a b hσ hab hc2 hane (hmv a ham) (hmv b hbm)]
    by_cases hba : beats a b = true
    · exact ⟨b, by simp [hba], hbm⟩
    · exact ⟨a, by simp [hba], ham⟩
  · by_cases hc1 : (mine.dedup.filter fun g => decide (g ∈ opp.dedup)).length = 1
    · by_cases hguard : (mine.dedup.filter fun g => !decide (g ∈ opp.dedup)).length ≠ 1 ∨
          (opp.dedup.filter fun g => !decide (g ∈ mine.dedup)).length ≠ 1
      · obtain ⟨g, hg, hgm⟩ := randChoice_mem (r := r) hne
        refine ⟨g, ?_, hgm⟩
        simp only [remove_gesture, hc2, hc1, hguard]
        simpa using hg
      · push_neg at hguard
        obtain ⟨cg, hc⟩ := List.length_eq_one.mp hc1
        obtain ⟨mnc, hmu⟩ := List.length_eq_one.mp hguard.1
        obtain ⟨onc, hou⟩ := List.length_eq_one.mp hguard.2
        have hmncm : mnc ∈ mine.dedup ∧ mnc ∉ opp.dedup := by
          have : mnc ∈ mine.dedup.filter fun g => !decide (g ∈ opp.dedup) := by
            rw [hmu]; simp
          simpa using List.mem_filter.mp this
        have honcm : onc ∈ opp.dedup := by
          have : onc ∈ opp.dedup.filter fun g => !decide (g ∈ mine.dedup) := by
            rw [hou]; simp
          exact (List.mem_filter.mp this).1
        have hcgm : cg ∈ mine := by
          have : cg ∈ mine.dedup.filter fun g => decide (g ∈ opp.dedup) := by
            rw [hc]; simp
          exact hdsub (List.mem_filter.mp this).1
        have hmncmine : mnc ∈ mine := hdsub hmncm.1
        have hnc : mnc ≠ onc := fun h => hmncm.2 (h ▸ honcm)
        rw [rg_common1 σ r mine opp cg mnc onc hc hmu hou]
        rcases beats_total (hmv mnc hmncmine) (hov onc (List.dedup_subset opp honcm)) hnc with h | h
        · exact ⟨mnc, by simp [h], hmncmine⟩
        · exact ⟨cg, by simp [h, beats_asymm h], hcgm⟩
    · by_cases hc0 : (mine.dedup.filter fun g => decide (g ∈ opp.dedup)).length = 0
      · obtain ⟨g, hg, hgm⟩ := randChoice_mem (r := r) hne
        refine ⟨g, ?_, hgm⟩
        simp only [remove_gesture, hc2, hc1, hc0]
        simpa using hg
      · omega

/-- The Python set `{g, g}` collapses to the singleton `{g}`. -/
theorem dedup_pair_self (g : String) : ([g, g] : List String).dedup = [g] := by
  rw [List.dedup_cons_of_mem (List.mem_singleton.mpr rfl)]
  exact (List.nodup_singleton g).dedup

/-- On inputs whose common set has size two (with valid distinct
gestures), or size one with well-formed unique sets, `remove_gesture` does
not depend on the set-enumeration order or on the RNG draw. -/
theorem rg_det (σ₁ σ₂ : List String → List String) (r₁ r₂ : Nat)
    (mine opp : List String)
    (hσ₁ : (σ₁ mine.dedup).Perm mine.dedup) (hσ₂ : (σ₂ mine.dedup).Perm mine.dedup)
    (hlen : mine.length ≤ 2) (hmv : ∀ x ∈ mine, x ∈ GESTURES)
    (hdet : (mine.dedup.filter fun g => decide (g ∈ opp.dedup)).length = 2 ∨
      ((mine.dedup.filter fun g => decide (g ∈ opp.dedup)).length = 1 ∧
       (mine.dedup.filter fun g => !decide (g ∈ opp.dedup)).length = 1 ∧
       (opp.dedup.filter fun g => !decide (g ∈ mine.dedup)).length = 1)) :
    remove_gesture σ₁ r₁ mine opp = remove_gesture σ₂ r₂ mine opp := by
  rcases hdet with hc2 | ⟨hc1, hmu1, hou1⟩
  · have hdlen : mine.dedup.length ≤ mine.length := (List.dedup_sublist mine).length_le
    have hflen : (mine.dedup.filter fun g => decide (g ∈ opp.dedup)).length ≤ mine.dedup.length :=
      List.length_filter_le _ _
    have h2 : mine.dedup.length = 2 := le_antisymm (hdlen.trans hlen) (by omega)
    obtain ⟨a, b, hab⟩ := List.length_eq_two.mp h2
    have hnd := List.nodup_dedup mine
    rw [hab] at hnd
    have hane : a ≠ b := (List.pairwise_cons.mp hnd).1 b (by simp)
    have ham : a ∈ mine := List.dedup_subset mine (by rw [hab]; simp)
    have hbm : b ∈ mine := List.dedup_subset mine (by rw [hab]; simp)
    rw [rg_common2 σ₁ r₁ mine opp a b hσ₁ hab hc2 hane (hmv a ham) (hmv b hbm),
        rg_common2 σ₂ r₂ mine opp a b hσ₂ hab hc2 hane (hmv a ham) (hmv b hbm)]
  · obtain ⟨cg, hc⟩ := List.length_eq_one.mp hc1
    obtain ⟨mnc, hmu⟩ := List.length_eq_one.mp hmu1
    obtain ⟨onc, hou⟩ := List.length_eq_one.mp hou1
    rw [rg_common1 σ₁ r₁ mine opp cg mnc onc hc hmu hou,
        rg_common1 σ₂ r₂ mine opp cg mnc onc hc hmu hou]

/-- C2 (amended): for `mine` and `opponent` two-element lists of *valid*
gestures, `remove_gesture` terminates without raising an exception and its
result is an element of `mine`, in every branch including the random
fallback branches.  (As stated over *every* pair of input lists the claim
is false: see the counterexample, where the final fallback returns
`'rock'` although `mine` does not contain it, and where an empty `mine`
raises `IndexError` inside `random.choice`.) -/
theorem C2_result_from_mine (σ : List String → List String) (r : Nat)
    (m1 m2 o1 o2 : String) (hσ : ∀ l, (σ l).Perm l)
    (hm1 : m1 ∈ GESTURES) (hm2 : m2 ∈ GESTURES)
    (ho1 : o1 ∈ GESTURES) (ho2 : o2 ∈ GESTURES) :
    ∃ g, (remove_gesture σ r [m1, m2] [o1, o2]).1 = Except.ok g ∧ g ∈ [m1, m2] :=
  remove_gesture_mem σ r [m1, m2] [o1, o2] (hσ _) (by simp) (by simp)
    (by intro x hx; rcases (by simpa using hx : x = m1 ∨ x = m2) with rfl | rfl
        exacts [hm1, hm2])
    (by intro x hx; rcases (by simpa using hx : x = o1 ∨ x = o2) with rfl | rfl
        exacts [ho1, ho2])

/-- Witness for C2 at a concrete input. -/
theorem C2_witness :
    ∃ g, (remove_gesture id 0 ["rock", "paper"] ["rock", "scissors"]).1 = Except.ok g ∧
      g ∈ ["rock", "paper"] :=
  C2_result_from_mine id 0 "rock" "paper" "rock" "scissors" (fun l => List.Perm.refl l)
    (by decide) (by decide) (by decide) (by decide)

/-- C2 counterexample: with invalid gesture strings the `return 'rock'`
fall-through yields a value outside `mine`, and an empty `mine` raises
`IndexError` in `random.choice`. -/
theorem C2_counterexample :
    ((remove_gesture id 0 ["paper", "foo"] ["paper", "bar"]).1 = Except.ok "rock" ∧
      "rock" ∉ ["paper", "foo"]) ∧
    (remove_gesture id 0 ([] : List String) []).1 =
      Except.error "IndexError: Cannot choose from an empty sequence" := by decide

/-- C3 (amended): when `mine = [g, g]` and the opponent's gesture set
coincides with mine's (singleton) set, the call resolves through the
anomalous-input *warning fallback* of the `len(common) == 1` branch and
returns `g`; the `len(common) == 2` branch does not fire, because both
sets collapse to the singleton `{g}`. -/
theorem C3_warning_fallback (σ : List String → List String) (r : Nat) (g : String)
    (opp : List String) (h : opp.dedup = [g]) :
    remove_gesture σ r [g, g] opp = (Except.ok g, [WARNING_MSG]) := by
  simp only [remove_gesture, dedup_pair_self, h]
  norm_num
  exact randChoice_const (by simp) (by simp)

/-- Witness for C3 at a concrete input. -/
theorem C3_witness :
    remove_gesture id 0 ["paper", "paper"] ["paper", "paper"] =
      (Except.ok "paper", [WARNING_MSG]) :=
  C3_warning_fallback id 0 "paper" ["paper", "paper"] (by decide)

/-- C3 counterexample: for `mine = opponent = [rock, rock]` the common set
has size 1, not 2, so the identical-sets branch does **not** fire; the
call lands in the warning fallback (the warning is printed). -/
theorem C3_counterexample :
    remove_gesture id 0 ["rock", "rock"] ["rock", "rock"] =
      (Except.ok "rock", [WARNING_MSG]) ∧
    ((["rock", "rock"] : List String).dedup.filter fun g =>
      decide (g ∈ (["rock", "rock"] : List String).dedup)).length ≠ 2 := by decide

/-- C4 (amended general rule, Rule 2): with exactly one common gesture and
well-formed unique sets, if the player's non-common gesture beats the
opponent's non-common gesture then `remove_gesture` returns the player's
non-common gesture (and prints no warning).  The particular instance cited
by the claim is wrong, since scissors beats paper — see the
counterexample. -/
theorem C4_rule2 (σ : List String → List String) (r : Nat)
    (mine opp : List String) (cg mnc onc : String)
    (hc : mine.dedup.filter (fun g => decide (g ∈ opp.dedup)) = [cg])
    (hmu : mine.dedup.filter (fun g => !decide (g ∈ opp.dedup)) = [mnc])
    (hou : opp.dedup.filter (fun g => !decide (g ∈ mine.dedup)) = [onc])
    (hb : beats mnc onc = true) :
    remove_gesture σ r mine opp = (Except.ok mnc, []) := by
  rw [rg_common1 σ r mine opp cg mnc onc hc hmu hou]
  simp [hb]

/-- Witness for C4 at a concrete Rule-2 input: scissors (mine, non-common)
beats paper (opponent, non-common). -/
theorem C4_witness :
    remove_gesture id 0 ["rock", "scissors"] ["rock", "paper"] =
      (Except.ok "scissors", []) :=
  C4_rule2 id 0 ["rock", "scissors"] ["rock", "paper"] "rock" "scissors" "paper"
    (by decide) (by decide) (by decide) (by decide)

/-- C4 counterexample: on the claim's cited input the opponent's
non-common gesture (scissors) beats the player's (paper) — paper does not
beat scissors — so Rule 4 fires and the result is `rock`, not `paper`. -/
theorem C4_counterexample :
    remove_gesture id 0 ["rock", "paper"] ["rock", "scissors"] = (Except.ok "rock", []) ∧
    (remove_gesture id 0 ["rock", "paper"] ["rock", "scissors"]).1 ≠ Except.ok "paper" ∧
    beats "paper" "scissors" = false ∧ beats "scissors" "paper" = true := by decide

/-- C5 (amended general rule, Rule 4): with exactly one common gesture and
well-formed unique sets, if the opponent's non-common gesture beats the
player's non-common gesture then `remove_gesture` returns the common
gesture (and prints no warning).  The particular instance cited by the
claim is wrong, since scissors beats paper — see the counterexample. -/
theorem C5_rule4 (σ : List String → List String) (r : Nat)
    (mine opp : List String) (cg mnc onc : String)
    (hc : mine.dedup.filter (fun g => decide (g ∈ opp.dedup)) = [cg])
    (hmu : mine.dedup.filter (fun g => !decide (g ∈ opp.dedup)) = [mnc])
    (hou : opp.dedup.filter (fun g => !decide (g ∈ mine.dedup)) = [onc])
    (hb : beats onc mnc = true) :
    remove_gesture σ r mine opp = (Except.ok cg, []) := by
  rw [rg_common1 σ r mine opp cg mnc onc hc hmu hou]
  simp [hb, beats_asymm hb]

/-- Witness for C5 at a concrete Rule-4 input: rock (opponent, non-common)
beats scissors (mine, non-common), so the common gesture paper is
removed. -/
theorem C5_witness :
    remove_gesture id 0 ["paper", "scissors"] ["paper", "rock"] =
      (Except.ok "paper", []) :=
  C5_rule4 id 0 ["paper", "scissors"] ["paper", "rock"] "paper" "scissors" "rock"
    (by decide) (by decide) (by decide) (by decide)

/-- C5 counterexample: on the claim's cited input the *player's*
non-common gesture (scissors) beats the opponent's (paper), so Rule 2
fires and the result is `scissors`, not the common gesture `rock`. -/
theorem C5_counterexample :
    remove_gesture id 0 ["scissors", "rock"] ["paper", "rock"] =
      (Except.ok "scissors", []) ∧
    (remove_gesture id 0 ["scissors", "rock"] ["paper", "rock"]).1 ≠ Except.ok "rock" ∧
    beats "paper" "scissors" = false ∧ beats "scissors" "paper" = true := by decide

/-- C6: when `mine` and `opponent` are two-element lists of the same two
distinct valid gestures, `remove_gesture` returns the losing gesture of
the pair — the one beaten by the other — whatever enumeration order the
sets are read in. -/
theorem C6_identical_sets (σ : List String → List String) (r : Nat)
    (mine opp : List String) (a b : String)
    (hσ : ∀ l, (σ l).Perm l)
    (hab : a ≠ b) (ha : a ∈ GESTURES) (hb : b ∈ GESTURES)
    (hm : mine = [a, b] ∨ mine = [b, a])
    (ho : opp = [a, b] ∨ opp = [b, a]) :
    remove_gesture σ r mine opp = (if beats a b then Except.ok b else Except.ok a, []) ∧
    beats (if beats a b then a else b) (if beats a b then b else a) = true := by
  have hao : a ∈ opp.dedup := List.mem_dedup.mpr (by rcases ho with rfl | rfl <;> simp)
  have hbo : b ∈ opp.dedup := List.mem_dedup.mpr (by rcases ho with rfl | rfl <;> simp)
  constructor
  · rcases hm with rfl | rfl
    · have hset : ([a, b] : List String).dedup = [a, b] :=
        (List.nodup_cons.mpr ⟨by simpa using hab, List.nodup_singleton b⟩).dedup
      have hc2 : (([a, b] : List String).dedup.filter fun g => decide (g ∈ opp.dedup)).length = 2 := by
        rw [hset]
        simp [List.filter, hao, hbo]
      exact rg_common2 σ r [a, b] opp a b (hσ _) hset hc2 hab ha hb
    · have hset : ([b, a] : List String).dedup = [b, a] :=
        (List.nodup_cons.mpr ⟨by simpa using hab.symm, List.nodup_singleton a⟩).dedup
      have hc2 : (([b, a] : List String).dedup.filter fun g => decide (g ∈ opp.dedup)).length = 2 := by
        rw [hset]
        simp [List.filter, hao, hbo]
      rw [rg_common2 σ r [b, a] opp b a (hσ _) hset hc2 hab.symm hb ha]
      by_cases hba : beats a b = true
      · simp [hba, beats_asymm hba]
      · rcases beats_total ha hb hab with h | h
        · exact absurd h hba
        · simp [h, hba]
  · by_cases hba : beats a b = true
    · simp [hba]
    · rcases beats_total ha hb hab with h | h
      · exact absurd h hba
      · simp [h, hba]

/-- Witness for C6 at the claim's cited input: rock beats scissors, so the
loser scissors is removed. -/
theorem C6_witness :
    (remove_gesture id 0 ["rock", "scissors"] ["rock", "scissors"] =
      (if beats "rock" "scissors" then Except.ok "scissors" else Except.ok "rock", []) ∧
     beats (if beats "rock" "scissors" then "rock" else "scissors")
       (if beats "rock" "scissors" then "scissors" else "rock") = true) ∧
    remove_gesture id 0 ["rock", "scissors"] ["rock", "scissors"] =
      (Except.ok "scissors", []) :=
  ⟨C6_identical_sets id 0 ["rock", "scissors"] ["rock", "scissors"] "rock" "scissors"
      (fun l => List.Perm.refl l) (by decide) (by decide) (by decide)
      (Or.inl rfl) (Or.inl rfl),
   by decide⟩

/-- C7: `beats` is irreflexive on the gesture alphabet, exactly one
direction holds for each pair of distinct gestures, and the relation forms
the cycle rock → scissors → paper → rock. -/
theorem C7_beats_cycle (x a b : String) (hx : x ∈ GESTURES) (ha : a ∈ GESTURES)
    (hb : b ∈ GESTURES) (hab : a ≠ b) :
    beats x x = false ∧ (beats a b = true ↔ beats b a = false) ∧
    beats "rock" "scissors" = true ∧ beats "scissors" "paper" = true ∧
    beats "paper" "rock" = true := by
  refine ⟨?_, ⟨?_, by decide, by decide, by decide⟩⟩
  · rcases (by simpa [GESTURES] using hx : x = "rock" ∨ x = "paper" ∨ x = "scissors")
      with rfl | rfl | rfl <;> decide
  · constructor
    · exact beats_asymm
    · intro h
      rcases beats_total ha hb hab with h2 | h2
      · exact h2
      · rw [h2] at h
        cases h

/-- Witness for C7 at concrete gestures. -/
theorem C7_witness :
    beats "rock" "rock" = false ∧ (beats "rock" "paper" = true ↔ beats "paper" "rock" = false) ∧
    beats "rock" "scissors" = true ∧ beats "scissors" "paper" = true ∧
    beats "paper" "rock" = true :=
  C7_beats_cycle "rock" "rock" "paper" (by decide) (by decide) (by decide) (by decide)

/-- C9 (amended): for two-element lists of valid gestures,
`remove_gesture` is independent of the set-enumeration order and the RNG
draw whenever the common set has size 2, or has size 1 *with well-formed
unique sets*.  (As stated — for every input whose sets share one or two
common gestures — the claim is false: a common set of size 1 can still
land in the arbitrary random fallback, see the counterexample.) -/
theorem C9_deterministic (σ₁ σ₂ : List String → List String) (r₁ r₂ : Nat)
    (m1 m2 o1 o2 : String)
    (hσ₁ : ∀ l, (σ₁ l).Perm l) (hσ₂ : ∀ l, (σ₂ l).Perm l)
    (hm1 : m1 ∈ GESTURES) (hm2 : m2 ∈ GESTURES)
    (hdet : (([m1, m2] : List String).dedup.filter fun g =>
        decide (g ∈ ([o1, o2] : List String).dedup)).length = 2 ∨
      ((([m1, m2] : List String).dedup.filter fun g =>
        decide (g ∈ ([o1, o2] : List String).dedup)).length = 1 ∧
       (([m1, m2] : List String).dedup.filter fun g =>
        !decide (g ∈ ([o1, o2] : List String).dedup)).length = 1 ∧
       (([o1, o2] : List String).dedup.filter fun g =>
        !decide (g ∈ ([m1, m2] : List String).dedup)).length = 1)) :
    remove_gesture σ₁ r₁ [m1, m2] [o1, o2] = remove_gesture σ₂ r₂ [m1, m2] [o1, o2] :=
  rg_det σ₁ σ₂ r₁ r₂ [m1, m2] [o1, o2] (hσ₁ _) (hσ₂ _) (by simp)
    (by intro x hx; rcases (by simpa using hx : x = m1 ∨ x = m2) with rfl | rfl
        exacts [hm1, hm2]) hdet

/-- Witness for C9 at a concrete input with two different RNG draws. -/
theorem C9_witness :
    remove_gesture id 0 ["rock", "paper"] ["paper", "scissors"] =
      remove_gesture id 1 ["rock", "paper"] ["paper", "scissors"] :=
  C9_deterministic id id 0 1 "rock" "paper" "paper" "scissors"
    (fun l => List.Perm.refl l) (fun l => List.Perm.refl l)
    (by decide) (by decide) (by decide)

/-- C9 counterexample: `mine = [rock, paper]`, `opponent = [rock, rock]`
share exactly one common gesture, yet two invocations differing only in
the RNG draw return different gestures — the size-1 common case can land
in the random fallback. -/
theorem C9_counterexample :
    remove_gesture id 0 ["rock", "paper"] ["rock", "rock"] ≠
      remove_gesture id 1 ["rock", "paper"] ["rock", "rock"] ∧
    ((["rock", "paper"] : List String).dedup.filter fun g =>
      decide (g ∈ (["rock", "rock"] : List String).dedup)).length = 1 := by decide

/-- C10: when the player's two gestures are identical, `remove_gesture`
returns that gesture whatever branch is taken, because every element of
`mine` equals it. -/
theorem C10_duplicate_hand (σ : List String → List String) (r : Nat) (g : String)
    (opp : List String) (hg : g ∈ GESTURES) (hlen : opp.length ≤ 2)
    (hov : ∀ x ∈ opp, x ∈ GESTURES) :
    (remove_gesture σ r [g, g] opp).1 = Except.ok g := by
  by_cases hgo : g ∈ opp
  · simp only [remove_gesture, dedup_pair_self]
    norm_num [hgo]
    exact randChoice_const (by simp) (by simp)
  · simp only [remove_gesture, dedup_pair_self]
    norm_num [hgo]
    exact randChoice_const (by simp) (by simp)

/-- Witness for C10 at a concrete input. -/
theorem C10_witness : (remove_gesture id 0 ["rock", "rock"] ["paper"]).1 = Except.ok "rock" :=
  C10_duplicate_hand id 0 "rock" ["paper"] (by decide) (by decide) (by decide)

/-- `setSides` only rewrites `side` fields; every other field of every
element is preserved. -/
theorem mem_setSides {l : List Hand} {h : Hand} (hm : h ∈ setSides l) :
    ∃ h0 ∈ l, h.player = h0.player ∧ h.x_center = h0.x_center ∧ h.y_center = h0.y_center := by
  cases l with
  | nil =>
      rw [show setSides [] = [] from rfl] at hm
      simp at hm
  | cons a tail =>
      cases tail with
      | nil =>
          rw [show setSides [a] = [a] from rfl] at hm
          rw [List.mem_singleton] at hm
          exact ⟨a, by simp, by rw [hm], by rw [hm], by rw [hm]⟩
      | cons b rest =>
          rw [show setSides (a :: b :: rest) =
              { a with side := some "LEFT" } :: { b with side := some "RIGHT" } :: rest
            from rfl] at hm
          rw [List.mem_cons, List.mem_cons] at hm
          rcases hm with rfl | rfl | hm
          · exact ⟨a, by simp, rfl, rfl, rfl⟩
          · exact ⟨b, by simp, rfl, rfl, rfl⟩
          · exact ⟨h, by simp [hm], rfl, rfl, rfl⟩

/-- `setSides` preserves length. -/
theorem setSides_length (l : List Hand) : (setSides l).length = l.length := by
  match l with
  | [] => rfl
  | [a] => rfl
  | a :: b :: rest => rfl

/-- The opponent group returned by the classifier has as many hands as
there are detections in the upper half of the frame. -/
theorem assignHands_fst_length (hands : List Hand) :
    (assignHands hands).1.length =
      (hands.filter fun h => decide (h.y_center < mkRat 1 2)).length := by
  simp [assignHands, (List.perm_insertionSort xle _).length_eq]

/-- The player group returned by the classifier has as many hands as
there are detections in the lower half of the frame. -/
theorem assignHands_snd_length (hands : List Hand) :
    (assignHands hands).2.length =
      (hands.filter fun h => !decide (h.y_center < mkRat 1 2)).length := by
  simp [assignHands, setSides_length, (List.perm_insertionSort xle _).length_eq]

/-- If `setSides` produced a list with at least two elements, the input
had the same shape and only the first two `side` fields were rewritten. -/
theorem setSides_eq_cons_cons {l : List Hand} {a b : Hand} {rest : List Hand}
    (h : setSides l = a :: b :: rest) :
    ∃ a0 b0, l = a0 :: b0 :: rest ∧ a = { a0 with side := some "LEFT" } ∧
      b = { b0 with side := some "RIGHT" } := by
  cases l with
  | nil =>
      rw [show setSides [] = [] from rfl] at h
      cases h
  | cons x tail =>
      cases tail with
      | nil =>
          rw [show setSides [x] = [x] from rfl] at h
          simp at h
      | cons y r =>
          rw [show setSides (x :: y :: r) =
              { x with side := some "LEFT" } :: { y with side := some "RIGHT" } :: r
            from rfl] at h
          injection h with h1 h2
          injection h2 with h2 h3
          exact ⟨x, y, by rw [h3], h1.symm, h2.symm⟩

/-- C8: the classifier sends every upper-half hand (`y_center < 0.5`) to
the opponent group and every other hand to the player group; opponent
hands get player `'OPPONENT'` and no side label, player hands get
`'MINE'`; and when at least two player hands exist, the one with minimal
`x_center` is labelled `LEFT`, the next `RIGHT`, and the remaining player
hands keep no side label. -/
theorem C8_classifier (hands : List Hand) (hside : ∀ h ∈ hands, h.side = none) :
    (∀ h ∈ (assignHands hands).1,
        h.player = some "OPPONENT" ∧ h.y_center < mkRat 1 2 ∧ h.side = none) ∧
    (∀ h ∈ (assignHands hands).2,
        h.player = some "MINE" ∧ ¬ h.y_center < mkRat 1 2) ∧
    (∀ a b rest, (assignHands hands).2 = a :: b :: rest →
        a.side = some "LEFT" ∧ b.side = some "RIGHT" ∧ (∀ h ∈ rest, h.side = none) ∧
        (∀ h ∈ (assignHands hands).2, a.x_center ≤ h.x_center) ∧
        (∀ h ∈ rest, b.x_center ≤ h.x_center)) := by
  have hfst : (assignHands hands).1 = List.insertionSort xle
      ((hands.filter fun h => decide (h.y_center < mkRat 1 2)).map
        fun h => { h with player := some "OPPONENT" }) := rfl
  have hsnd : (assignHands hands).2 = setSides (List.insertionSort xle
      ((hands.filter fun h => !decide (h.y_center < mkRat 1 2)).map
        fun h => { h with player := some "MINE" })) := rfl
  have hperm := List.perm_insertionSort xle
      ((hands.filter fun h => !decide (h.y_center < mkRat 1 2)).map
        fun h => { h with player := some "MINE" })
  have hsort := List.sorted_insertionSort xle
      ((hands.filter fun h => !decide (h.y_center < mkRat 1 2)).map
        fun h => { h with player := some "MINE" })
  have hLside : ∀ h ∈ List.insertionSort xle
      ((hands.filter fun h => !decide (h.y_center < mkRat 1 2)).map
        fun h => { h with player := some "MINE" }), h.side = none := by
    intro h hm
    obtain ⟨h0, h0mem, rfl⟩ := List.mem_map.mp (hperm.mem_iff.mp hm)
    simpa using hside h0 (List.mem_filter.mp h0mem).1
  refine ⟨?_, ?_, ?_⟩
  · intro h hm
    rw [hfst] at hm
    obtain ⟨h0, h0mem, rfl⟩ :=
      List.mem_map.mp ((List.perm_insertionSort xle _).mem_iff.mp hm)
    obtain ⟨h0h, h0p⟩ := List.mem_filter.mp h0mem
    exact ⟨rfl, by simpa using h0p, by simpa using hside h0 h0h⟩
  · intro h hm
    rw [hsnd] at hm
    obtain ⟨h1, h1mem, hpl, hx, hy⟩ := mem_setSides hm
    obtain ⟨h0, h0mem, rfl⟩ := List.mem_map.mp (hperm.mem_iff.mp h1mem)
    obtain ⟨h0h, h0p⟩ := List.mem_filter.mp h0mem
    constructor
    · rw [hpl]
    · rw [hy]
      simpa using h0p
  · intro a b rest heq
    rw [hsnd] at heq
    obtain ⟨a0, b0, hLeq, ha, hb⟩ := setSides_eq_cons_cons heq
    rw [hLeq] at hsort
    obtain ⟨ha0le, hsort2⟩ := List.sorted_cons.mp hsort
    obtain ⟨hb0le, _⟩ := List.sorted_cons.mp hsort2
    have hax : a.x_center = a0.x_center := by rw [ha]
    have hbx : b.x_center = b0.x_center := by rw [hb]
    refine ⟨by rw [ha], by rw [hb], ?_, ?_, ?_⟩
    · intro h hm
      exact hLside h (by rw [hLeq]; exact List.mem_cons_of_mem _ (List.mem_cons_of_mem _ hm))
    · intro h hm
      rw [hsnd, heq] at hm
      rw [List.mem_cons, List.mem_cons] at hm
      rcases hm with rfl | rfl | hm
      · exact le_refl _
      · rw [hax, hbx]
        exact ha0le b0 (by simp)
      · rw [hax]
        exact ha0le h (List.mem_cons_of_mem _ hm)
    · intro h hm
      rw [hbx]
      exact hb0le h hm

/-- Witness for C8 on the specification's example: `y_center` values
`[0.2, 0.3, 0.7, 0.8]` make the first two hands OPPONENT and the last two
MINE, with LEFT going to the smaller `x_center`. -/
theorem C8_witness :
    ((assignHands exHands8).1.map (fun h => h.player) =
        [some "OPPONENT", some "OPPONENT"] ∧
      (assignHands exHands8).2.map (fun h => h.player) = [some "MINE", some "MINE"] ∧
      (assignHands exHands8).2.map (fun h => h.side) = [some "LEFT", some "RIGHT"] ∧
      (assignHands exHands8).2.map (fun h => h.x_center) = [mkRat 2 10, mkRat 7 10]) ∧
    (∀ h ∈ (assignHands exHands8).1,
        h.player = some "OPPONENT" ∧ h.y_center < mkRat 1 2 ∧ h.side = none) ∧
    (∀ h ∈ (assignHands exHands8).2,
        h.player = some "MINE" ∧ ¬ h.y_center < mkRat 1 2) :=
  ⟨by decide,
   (C8_classifier exHands8 (by decide)).1,
   (C8_classifier exHands8 (by decide)).2.1⟩

/-- Appending to the count-mismatch prefix keeps its first character. -/
theorem warnMsgHead (t : String) :
    ("⚠️ Error: Model detected " ++ t).data.head? = some '⚠' := by
  cases t with
  | mk l => rfl

/-- Appending to the game-analysis prefix keeps its first character. -/
theorem analysisMsgHead (t : String) :
    ("\n--- Game Analysis ---\nYour hands: **" ++ t).data.head? = some '\n' := by
  cases t with
  | mk l => rfl

/-- The count-mismatch message is never equal to a removal instruction:
they start with different characters. -/
theorem countMismatchMsg_ne_removalMsg (o m : Nat) (g0 g1 o0 o1 g s : String) :
    countMismatchMsg o m ≠ removalMsg g0 g1 o0 o1 g s := by
  intro hEq
  have ha : (countMismatchMsg o m).data.head? = some '⚠' := warnMsgHead _
  have hb : (removalMsg g0 g1 o0 o1 g s).data.head? = some '\n' := analysisMsgHead _
  rw [hEq, hb] at ha
  simp at ha

/-- C1 (amended): whenever *fewer than two* hands land in either group,
`solve` returns the count-mismatch message carrying both actual counts,
and that message is never a removal instruction.  (For counts *above*
two the code's `< 2` test passes and `solve` happily emits a removal
instruction, so the claim as stated — any count different from exactly
two — is false; see the counterexample with three opponent hands.) -/
theorem C1_count_mismatch (σ : List String → List String) (r : Nat) (hands : List Hand)
    (h : (hands.filter fun h => decide (h.y_center < mkRat 1 2)).length < 2 ∨
         (hands.filter fun h => !decide (h.y_center < mkRat 1 2)).length < 2) :
    solve σ r hands =
      Except.ok (countMismatchMsg
        (hands.filter fun h => decide (h.y_center < mkRat 1 2)).length
        (hands.filter fun h => !decide (h.y_center < mkRat 1 2)).length) ∧
    ∀ g0 g1 o0 o1 g s,
      countMismatchMsg
        (hands.filter fun h => decide (h.y_center < mkRat 1 2)).length
        (hands.filter fun h => !decide (h.y_center < mkRat 1 2)).length ≠
      removalMsg g0 g1 o0 o1 g s := by
  have h1 := assignHands_fst_length hands
  have h2 := assignHands_snd_length hands
  have hcond : (assignHands hands).1.length < 2 ∨ (assignHands hands).2.length < 2 := by
    rw [h1, h2]
    exact h
  constructor
  · simp only [solve]
    rw [if_pos hcond, h1, h2]
  · intro g0 g1 o0 o1 g s
    exact countMismatchMsg_ne_removalMsg _ _ g0 g1 o0 o1 g s

/-- Witness for C1 on a two-hand input (one per player). -/
theorem C1_witness :
    solve id 0 oneOneHands =
      Except.ok (countMismatchMsg
        (oneOneHands.filter fun h => decide (h.y_center < mkRat 1 2)).length
        (oneOneHands.filter fun h => !decide (h.y_center < mkRat 1 2)).length) :=
  (C1_count_mismatch id 0 oneOneHands (by decide)).1

set_option maxRecDepth 10000 in
/-- C1 counterexample: with three opponent hands and two of mine — counts
that differ from exactly two — `solve` does *not* report a count mismatch
but returns a removal instruction. -/
theorem C1_counterexample :
    (assignHands cexHands).1.length = 3 ∧ (assignHands cexHands).2.length = 2 ∧
    solve id 0 cexHands = Except.ok (removalMsg "rock" "rock" "rock" "rock" "rock" "LEFT") ∧
    solve id 0 cexHands ≠ Except.ok (countMismatchMsg 3 2) := by decide
